import Mathlib

/-!
# a2s-cache: challenge registry, response cache, query server and upstream poller

A shallow embedding of the Go sources

* `internal/cache/cache.go`      (`Cache`),
* `internal/server/challenges.go` (`ChallengeMap`),
* `server/server.go`              (`Server.serve`, `sendChallenge`, `respond`),
* `poller/poller.go`              (`Poller.poll`, `execQuery`),

followed by theorems about them.

Modelling conventions.

* A Go `[]byte` value is `Bytes = Option (List Byte)`: `none` is the nil slice,
  `some l` a non-nil slice with contents `l`.  Slices that are never nil in the
  source (package-level packet literals, `buf[:n]`) are plain `List Byte`.
* A Go `map[string]V` is an association list with unique keys (`AList`); the
  order of its entries stands for the unspecified iteration order of the map.
* `time.Time` is an instant on a linear time line, counted in nanoseconds
  (`Int`); `time.Duration` is a number of nanoseconds.
* Every method that runs under the registry mutex is one atomic state
  transformer.  The values read from the environment (`time.Now()`,
  `rand.Read`, the network) are explicit arguments.
-/

namespace A2SCache

/-! ## Bytes -/

abbrev Byte := Fin 256

/-- A Go `[]byte`: `none` is nil, `some l` is a non-nil slice holding `l`. -/
abbrev Bytes := Option (List Byte)

/-- The contents of a slice; the nil slice has none. -/
def Bytes.data : Bytes → List Byte
  | none => []
  | some l => l

/-- Go `bytes.Equal`: compares contents only, so nil equals an empty slice. -/
def bytesEqual (a b : Bytes) : Bool := a.data == b.data

/-- Go `bytes.Clone`: nil stays nil, anything else is a fresh non-nil copy. -/
def bytesClone : Bytes → Bytes
  | none => none
  | some l => some ([] ++ l)

/-- Go slice expression `b[lo:hi]` on the contents of a slice. -/
def slice (b : List Byte) (lo hi : Nat) : List Byte := (b.take hi).drop lo

/-! ## internal/cache/cache.go -/

structure Cache where
  infoResp : Bytes
  playersResp : Bytes
deriving DecidableEq

/-- Go `cache.New`: `&Cache{}`, both slots hold the zero value (nil). -/
def Cache.New : Cache := ⟨none, none⟩

def Cache.SetInfoResponse (c : Cache) (resp : Bytes) : Cache :=
  ⟨resp, c.playersResp⟩

def Cache.InfoResponse (c : Cache) : Bytes := bytesClone c.infoResp

def Cache.SetPlayersResponse (c : Cache) (resp : Bytes) : Cache :=
  ⟨c.infoResp, resp⟩

def Cache.PlayersResponse (c : Cache) : Bytes := bytesClone c.playersResp

/-! ## internal/server/challenges.go -/

/-- Instants and durations, in nanoseconds. -/
abbrev Time := Int

abbrev Duration := Int

def second : Duration := 1000000000

/-- Go `var challengeTTL = 5 * time.Second`. -/
def challengeTTL : Duration := 5 * second

/-- Go `t.Add(d)`. -/
def Time.Add (t : Time) (d : Duration) : Time := t + d

/-- Go `t.After(u)`: `t` is strictly later than `u`. -/
def Time.After (t u : Time) : Bool := decide (u < t)

/-- Go `type Challenge []byte`. -/
abbrev Challenge := Bytes

def Challenge.Equals (c other : Challenge) : Bool := bytesEqual c other

def Challenge.Copy (c : Challenge) : Challenge := bytesClone c

/-- A Go `map[string]V`. -/
abbrev GoMap (V : Type) := AList (fun _ : String => V)

/-- The two maps of a `ChallengeMap` (logger and mutex carry no state). -/
structure ChallengeMap where
  challenges : GoMap Challenge
  chTimes : GoMap Time

def NewChallengeMap : ChallengeMap := ⟨∅, ∅⟩

/-- Go `(*ChallengeMap).remove`. -/
def ChallengeMap.remove (c : ChallengeMap) (key : String) : ChallengeMap :=
  ⟨c.challenges.erase key, c.chTimes.erase key⟩

/-- The first loop of `cleanup`: the keys of `chTimes` whose time plus the TTL
lies strictly before `now`, in iteration order. -/
def ChallengeMap.expiredKeys (c : ChallengeMap) (now : Time) : List String :=
  c.chTimes.entries.foldl
    (fun toBeRemoved e =>
      if now.After (Time.Add e.2 challengeTTL) then toBeRemoved ++ [e.1] else toBeRemoved)
    []

/-- Go `(*ChallengeMap).cleanup`, with `now` the value of `time.Now()`. -/
def ChallengeMap.cleanup (c : ChallengeMap) (now : Time) : ChallengeMap :=
  (c.expiredKeys now).foldl ChallengeMap.remove c

/-- What `rand.Read` does to the 4-byte buffer: fills it, or fails. -/
inductive RandRead where
  | filled (b0 b1 b2 b3 : Byte)
  | failed

/-- Go `(*ChallengeMap).genChallenge`. -/
def genChallenge : RandRead → Challenge
  | .filled b0 b1 b2 b3 => some [b0, b1, b2, b3]
  | .failed => some [0x0, 0x0, 0x0, 0x0]

/-- Go `(*ChallengeMap).AddChallenge`: the new state and the returned copy. -/
def ChallengeMap.AddChallenge (c : ChallengeMap) (key : String) (rnd : RandRead)
    (now : Time) : ChallengeMap × Challenge :=
  let ch := genChallenge rnd
  (⟨c.challenges.insert key ch, c.chTimes.insert key now⟩, Challenge.Copy ch)

/-- Go `(*ChallengeMap).Validate`: the new state and the returned flag. -/
def ChallengeMap.Validate (c : ChallengeMap) (key : String) (ch : Challenge) :
    ChallengeMap × Bool :=
  let found := c.challenges.lookup key
  let actualCH : Challenge := found.getD none
  let exists_ := found.isSome
  if !exists_ || !(Challenge.Equals actualCH ch) then (c, false)
  else (c.remove key, true)

/-! ## util/packets -/

/-- The packet literals of package `util/packets`, which `server.go` and
`poller.go` import.  Their bytes are defined outside the files embedded here, so
the table is an argument of everything that uses it. -/
structure Packets where
  A2SInfoReq : List Byte
  A2SPlayerReq : List Byte
  A2SPlayerChallengeSuffix : List Byte
  A2SPlayerChallengeSuffixTF2 : List Byte
  ChallengeResp : List Byte

/-- The all-0xFF placeholder of the PLAYERS request. -/
def wildcard : List Byte := [0xFF, 0xFF, 0xFF, 0xFF]

/-- Modelled from the spec: the shape of the `util/packets` literals, which are
defined outside the files embedded here: the INFO request is a fixed 25-byte sequence, the
PLAYERS request and the challenge response are fixed 5-byte headers, and the
placeholder suffix of a PLAYERS request is the all-0xFF 4-byte value. -/
structure Packets.WellFormed (P : Packets) : Prop where
  infoReq_length : P.A2SInfoReq.length = 25
  playerReq_length : P.A2SPlayerReq.length = 5
  challengeResp_length : P.ChallengeResp.length = 5
  suffix_wildcard : P.A2SPlayerChallengeSuffix = wildcard

/-- Modelled from the spec: a concrete `util/packets` table with the byte
values of the A2S query protocol the spec describes (magic `FF FF FF FF`, type
byte, query string `Source Engine Query` and terminator for the 25-byte INFO
request; type bytes `55` and `41` for the 5-byte PLAYERS request and challenge
response headers).  The spec knows a single placeholder suffix, the all-0xFF
value, so both placeholder names of the table carry it.  The table only
instantiates the general theorems, which hold for every table. -/
def a2sPackets : Packets where
  A2SInfoReq :=
    [0xFF, 0xFF, 0xFF, 0xFF, 0x54,
     0x53, 0x6F, 0x75, 0x72, 0x63, 0x65, 0x20,
     0x45, 0x6E, 0x67, 0x69, 0x6E, 0x65, 0x20,
     0x51, 0x75, 0x65, 0x72, 0x79, 0x00]
  A2SPlayerReq := [0xFF, 0xFF, 0xFF, 0xFF, 0x55]
  A2SPlayerChallengeSuffix := [0xFF, 0xFF, 0xFF, 0xFF]
  A2SPlayerChallengeSuffixTF2 := [0xFF, 0xFF, 0xFF, 0xFF]
  ChallengeResp := [0xFF, 0xFF, 0xFF, 0xFF, 0x41]

/-! ## server/server.go -/

/-- The state a `Server` works on: one registry per query kind and the cache
it reads. -/
structure Server where
  chMapInfo : ChallengeMap
  chMapPlayer : ChallengeMap
  cache : Cache

/-- Go `server.New`, given the cache. -/
def Server.New (cache : Cache) : Server := ⟨NewChallengeMap, NewChallengeMap, cache⟩

/-- Go `(*Server).sendChallenge` on registry `chMap`: the registry afterwards
and the datagram handed to `pc.WriteTo`. -/
def sendChallenge (P : Packets) (chMap : ChallengeMap) (addr : String) (rnd : RandRead)
    (now : Time) : ChallengeMap × List Byte :=
  let r := chMap.AddChallenge addr rnd now
  (r.1, (bytesClone (some P.ChallengeResp)).data ++ r.2.data)

/-- Go `(*Server).respond` on registry `chMap`, with `resp` the value the cache
getter returns: the registry afterwards and the datagram handed to
`pc.WriteTo`, if any. -/
def respond (chMap : ChallengeMap) (addr : String) (ch : Challenge) (resp : Bytes) :
    ChallengeMap × Option (List Byte) :=
  let v := chMap.Validate addr ch
  if !v.2 then (v.1, none)
  else
    match resp with
    | none => (v.1, none)
    | some r => (v.1, some r)

/-- One iteration of the loop of `(*Server).serve` together with the handler it
starts: `pkt` is `buf[:n]` of the datagram read, `addr` is `addr.String()` of
its sender.  Returns the state afterwards and the reply written, if any. -/
def serveStep (P : Packets) (s : Server) (addr : String) (pkt : List Byte) (rnd : RandRead)
    (now : Time) : Server × Option (List Byte) :=
  let n := pkt.length
  if n == 25 && bytesEqual (some (slice pkt 0 n)) (some P.A2SInfoReq) then
    let r := sendChallenge P s.chMapInfo addr rnd now
    (⟨r.1, s.chMapPlayer, s.cache⟩, some r.2)
  else if n == 29 && bytesEqual (some (slice pkt 0 25)) (some P.A2SInfoReq) then
    let r := respond s.chMapInfo addr (bytesClone (some (slice pkt 25 n))) s.cache.InfoResponse
    (⟨r.1, s.chMapPlayer, s.cache⟩, r.2)
  else if n == 9 && bytesEqual (some (slice pkt 0 5)) (some P.A2SPlayerReq) then
    if bytesEqual (some (slice pkt 5 n)) (some P.A2SPlayerChallengeSuffixTF2)
        || bytesEqual (some (slice pkt 5 n)) (some P.A2SPlayerChallengeSuffix) then
      let r := sendChallenge P s.chMapPlayer addr rnd now
      (⟨s.chMapInfo, r.1, s.cache⟩, some r.2)
    else
      let r := respond s.chMapPlayer addr (bytesClone (some (slice pkt 5 n))) s.cache.PlayersResponse
      (⟨s.chMapInfo, r.1, s.cache⟩, r.2)
  else (s, none)

/-! ## poller/poller.go -/

/-- A registry holding one record: identity `a`, token `00 01 02 03`, issued at
time 0. -/
def registryA : ChallengeMap :=
  ⟨(∅ : GoMap Challenge).insert "a" (some [0x0, 0x1, 0x2, 0x3]), (∅ : GoMap Time).insert "a" 0⟩

/-- A server whose INFO registry is `registryA`, whose PLAYERS registry is
empty and whose cache holds the INFO payload `49 01`. -/
def serverA : Server := ⟨registryA, NewChallengeMap, ⟨some [0x49, 0x01], none⟩⟩

/-- The 29-byte INFO request of `a2sPackets` carrying the token of `registryA`. -/
def infoDataReqA : List Byte := a2sPackets.A2SInfoReq ++ [0x0, 0x1, 0x2, 0x3]

/-! ## Auxiliary facts -/

theorem bytesEqual_iff (a b : Bytes) : bytesEqual a b = true ↔ a.data = b.data := by
  simp [bytesEqual]

theorem bytesClone_some (l : List Byte) : bytesClone (some l) = some l := by
  simp [bytesClone]

theorem bytesClone_data (b : Bytes) : (bytesClone b).data = b.data := by
  cases b <;> simp [bytesClone, Bytes.data]

theorem expiredKeys_fold (now : Time) (l : List (Sigma (fun _ : String => Time)))
    (acc : List String) :
    l.foldl (fun toBeRemoved e =>
        if now.After (Time.Add e.2 challengeTTL) then toBeRemoved ++ [e.1] else toBeRemoved) acc
      = acc ++ (l.filter (fun e => now.After (Time.Add e.2 challengeTTL))).map (fun e => e.1) := by
  induction l generalizing acc with
  | nil => simp
  | cons e l ih =>
    simp only [List.foldl_cons, List.filter_cons]
    by_cases h : now.After (Time.Add e.2 challengeTTL) = true
    · simp [h, ih]
    · simp [h, ih]

theorem mem_expiredKeys (c : ChallengeMap) (now : Time) (key : String) :
    key ∈ c.expiredKeys now ↔ ∃ t, c.chTimes.lookup key = some t ∧ t + challengeTTL < now := by
  unfold ChallengeMap.expiredKeys
  rw [expiredKeys_fold]
  simp only [List.nil_append, List.mem_map, List.mem_filter, Time.After, Time.Add,
    decide_eq_true_eq]
  constructor
  · rintro ⟨⟨k, t⟩, ⟨hmem, hlt⟩, rfl⟩
    exact ⟨t, AList.mem_lookup_iff.mpr hmem, hlt⟩
  · rintro ⟨t, hl, hlt⟩
    exact ⟨⟨key, t⟩, ⟨AList.mem_lookup_iff.mp hl, hlt⟩, rfl⟩

theorem foldl_remove_challenges (ks : List String) (c : ChallengeMap) (key : String) :
    (ks.foldl ChallengeMap.remove c).challenges.lookup key
      = if key ∈ ks then none else c.challenges.lookup key := by
  induction ks generalizing c with
  | nil => simp
  | cons k ks ih =>
    simp only [List.foldl_cons, ih, List.mem_cons]
    by_cases h1 : key ∈ ks
    · simp [h1]
    · by_cases h2 : key = k
      · subst h2
        simp [h1, ChallengeMap.remove]
      · simp [h1, h2, ChallengeMap.remove, AList.lookup_erase_ne h2]

theorem foldl_remove_chTimes (ks : List String) (c : ChallengeMap) (key : String) :
    (ks.foldl ChallengeMap.remove c).chTimes.lookup key
      = if key ∈ ks then none else c.chTimes.lookup key := by
  induction ks generalizing c with
  | nil => simp
  | cons k ks ih =>
    simp only [List.foldl_cons, ih, List.mem_cons]
    by_cases h1 : key ∈ ks
    · simp [h1]
    · by_cases h2 : key = k
      · subst h2
        simp [h1, ChallengeMap.remove]
      · simp [h1, h2, ChallengeMap.remove, AList.lookup_erase_ne h2]

theorem validate_of_match (c : ChallengeMap) (key : String) (ch tok : Challenge)
    (h : c.challenges.lookup key = some tok) (heq : tok.data = ch.data) :
    c.Validate key ch = (c.remove key, true) := by
  simp [ChallengeMap.Validate, h, Challenge.Equals, bytesEqual, heq]

theorem validate_of_absent (c : ChallengeMap) (key : String) (ch : Challenge)
    (h : c.challenges.lookup key = none) :
    c.Validate key ch = (c, false) := by
  simp [ChallengeMap.Validate, h]

theorem validate_of_mismatch (c : ChallengeMap) (key : String) (ch tok : Challenge)
    (h : c.challenges.lookup key = some tok) (hne : tok.data ≠ ch.data) :
    c.Validate key ch = (c, false) := by
  simp [ChallengeMap.Validate, h, Challenge.Equals, bytesEqual, hne]

theorem slice_zero (b : List Byte) (hi : Nat) : slice b 0 hi = b.take hi := by
  simp [slice]

theorem slice_to_length (b : List Byte) (lo : Nat) : slice b lo b.length = b.drop lo := by
  simp [slice]

theorem serveStep_info_challenge (P : Packets) (s : Server) (addr : String) (pkt : List Byte)
    (rnd : RandRead) (now : Time) (hlen : pkt.length = 25) (hreq : pkt = P.A2SInfoReq) :
    serveStep P s addr pkt rnd now
      = (⟨(sendChallenge P s.chMapInfo addr rnd now).1, s.chMapPlayer, s.cache⟩,
          some (sendChallenge P s.chMapInfo addr rnd now).2) := by
  have h1 : bytesEqual (some (slice pkt 0 pkt.length)) (some P.A2SInfoReq) = true := by
    rw [bytesEqual_iff, slice_to_length]
    simpa [Bytes.data] using hreq
  simp only [serveStep, h1]
  simp [hlen]

theorem serveStep_info_data (P : Packets) (s : Server) (addr : String) (pkt : List Byte)
    (rnd : RandRead) (now : Time) (hlen : pkt.length = 29) (hpre : pkt.take 25 = P.A2SInfoReq) :
    serveStep P s addr pkt rnd now
      = (⟨(respond s.chMapInfo addr (some (pkt.drop 25)) s.cache.InfoResponse).1,
            s.chMapPlayer, s.cache⟩,
          (respond s.chMapInfo addr (some (pkt.drop 25)) s.cache.InfoResponse).2) := by
  have h1 : bytesEqual (some (slice pkt 0 25)) (some P.A2SInfoReq) = true := by
    rw [bytesEqual_iff, slice_zero]
    simpa [Bytes.data] using hpre
  have h2 : slice pkt 25 29 = pkt.drop 25 := by
    rw [← hlen, slice_to_length]
  simp only [serveStep, h1, hlen, h2, bytesClone_some]
  simp

theorem serveStep_players (P : Packets) (s : Server) (addr : String) (pkt : List Byte)
    (rnd : RandRead) (now : Time) (hlen : pkt.length = 9) (hpre : pkt.take 5 = P.A2SPlayerReq) :
    serveStep P s addr pkt rnd now
      = if pkt.drop 5 = P.A2SPlayerChallengeSuffixTF2 ∨ pkt.drop 5 = P.A2SPlayerChallengeSuffix
        then (⟨s.chMapInfo, (sendChallenge P s.chMapPlayer addr rnd now).1, s.cache⟩,
          some (sendChallenge P s.chMapPlayer addr rnd now).2)
        else (⟨s.chMapInfo,
            (respond s.chMapPlayer addr (some (pkt.drop 5)) s.cache.PlayersResponse).1, s.cache⟩,
          (respond s.chMapPlayer addr (some (pkt.drop 5)) s.cache.PlayersResponse).2) := by
  have h1 : bytesEqual (some (slice pkt 0 5)) (some P.A2SPlayerReq) = true := by
    rw [bytesEqual_iff, slice_zero]
    simpa [Bytes.data] using hpre
  have h2 : slice pkt 5 9 = pkt.drop 5 := by
    rw [← hlen, slice_to_length]
  simp only [serveStep, h1, hlen, h2, bytesClone_some]
  simp [bytesEqual, Bytes.data]

theorem serveStep_unknown (P : Packets) (s : Server) (addr : String) (pkt : List Byte)
    (rnd : RandRead) (now : Time)
    (h1 : ¬ (pkt.length = 25 ∧ pkt = P.A2SInfoReq))
    (h2 : ¬ (pkt.length = 29 ∧ pkt.take 25 = P.A2SInfoReq))
    (h3 : ¬ (pkt.length = 9 ∧ pkt.take 5 = P.A2SPlayerReq)) :
    serveStep P s addr pkt rnd now = (s, none) := by
  have c1 : (pkt.length == 25 && bytesEqual (some (slice pkt 0 pkt.length)) (some P.A2SInfoReq))
      = false := by
    rw [Bool.eq_false_iff]
    intro h
    simp only [Bool.and_eq_true, beq_iff_eq, bytesEqual_iff, slice_to_length] at h
    exact h1 ⟨h.1, by simpa [Bytes.data] using h.2⟩
  have c2 : (pkt.length == 29 && bytesEqual (some (slice pkt 0 25)) (some P.A2SInfoReq))
      = false := by
    rw [Bool.eq_false_iff]
    intro h
    simp only [Bool.and_eq_true, beq_iff_eq, bytesEqual_iff, slice_zero] at h
    exact h2 ⟨h.1, by simpa [Bytes.data] using h.2⟩
  have c3 : (pkt.length == 9 && bytesEqual (some (slice pkt 0 5)) (some P.A2SPlayerReq))
      = false := by
    rw [Bool.eq_false_iff]
    intro h
    simp only [Bool.and_eq_true, beq_iff_eq, bytesEqual_iff, slice_zero] at h
    exact h3 ⟨h.1, by simpa [Bytes.data] using h.2⟩
  simp only [serveStep, c1, c2, c3]
  simp

theorem respond_reply (chMap : ChallengeMap) (addr : String) (ch : Challenge) (resp : Bytes)
    (reply : List Byte) :
    (respond chMap addr ch resp).2 = some reply
      ↔ (chMap.Validate addr ch).2 = true ∧ resp = some reply := by
  unfold respond
  cases hv : (chMap.Validate addr ch).2 <;> cases resp <;> simp [hv]

theorem respond_registry (chMap : ChallengeMap) (addr : String) (ch : Challenge) (resp : Bytes) :
    (respond chMap addr ch resp).1 = (chMap.Validate addr ch).1 := by
  unfold respond
  cases hv : (chMap.Validate addr ch).2 <;> cases resp <;> simp [hv]

theorem validate_true_iff (c : ChallengeMap) (key : String) (ch : Challenge) :
    (c.Validate key ch).2 = true
      ↔ ∃ tok, c.challenges.lookup key = some tok ∧ tok.data = ch.data := by
  cases hl : c.challenges.lookup key with
  | none => simp [validate_of_absent c key ch hl]
  | some tok =>
    by_cases heq : tok.data = ch.data
    · simp [validate_of_match c key ch tok hl heq, heq]
    · simp [validate_of_mismatch c key ch tok hl heq, heq]

theorem genChallenge_shape (rnd : RandRead) :
    ∃ tok : List Byte, tok.length = 4 ∧ genChallenge rnd = some tok := by
  cases rnd with
  | filled b0 b1 b2 b3 => exact ⟨[b0, b1, b2, b3], rfl, rfl⟩
  | failed => exact ⟨[0x0, 0x0, 0x0, 0x0], rfl, rfl⟩

/-- C1: `Validate` is single-use.  For every registry state `c`, identity `id`,
outcome of the random source and clock value, with `t` the token returned by
`AddChallenge(id)`: the next `Validate(id, t)` returns true and leaves `id` in
neither the token map nor the issue-time map, and a second `Validate(id, t)`
right after it returns false. -/
theorem validate_single_use (c : ChallengeMap) (id : String) (rnd : RandRead) (now : Time) :
    ((c.AddChallenge id rnd now).1.Validate id (c.AddChallenge id rnd now).2).2 = true
    ∧ ((c.AddChallenge id rnd now).1.Validate id
        (c.AddChallenge id rnd now).2).1.challenges.lookup id = none
    ∧ ((c.AddChallenge id rnd now).1.Validate id
        (c.AddChallenge id rnd now).2).1.chTimes.lookup id = none
    ∧ (((c.AddChallenge id rnd now).1.Validate id (c.AddChallenge id rnd now).2).1.Validate id
        (c.AddChallenge id rnd now).2).2 = false := by
  have hv : (c.AddChallenge id rnd now).1.Validate id (c.AddChallenge id rnd now).2
      = ((c.AddChallenge id rnd now).1.remove id, true) := by
    apply validate_of_match _ _ _ (genChallenge rnd)
    · simp [ChallengeMap.AddChallenge]
    · simp [ChallengeMap.AddChallenge, Challenge.Copy, bytesClone_data]
  rw [hv]
  refine ⟨rfl, ?_, ?_, ?_⟩
  · simp [ChallengeMap.remove]
  · simp [ChallengeMap.remove]
  · rw [validate_of_absent]
    simp [ChallengeMap.remove]

/-- C7: `Validate` fails without side effects.  For every registry state,
identity and token, `Validate` returns false exactly when the token map has no
entry for the identity or the stored token is not byte-equal to the supplied
one, and whenever it returns false the registry (token map and issue-time map)
is the one it started from.  The function is total: an unknown identity yields
a result like any other. -/
theorem validate_failure_no_mutation (c : ChallengeMap) (key : String) (ch : Challenge) :
    ((c.Validate key ch).2 = false ↔
        (c.challenges.lookup key = none
          ∨ ∃ tok, c.challenges.lookup key = some tok ∧ bytesEqual tok ch = false))
    ∧ ((c.Validate key ch).2 = false →
        (c.Validate key ch).1 = c
          ∧ (c.Validate key ch).1.challenges = c.challenges
          ∧ (c.Validate key ch).1.chTimes = c.chTimes) := by
  cases hl : c.challenges.lookup key with
  | none =>
    rw [validate_of_absent c key ch hl]
    simp
  | some tok =>
    by_cases heq : tok.data = ch.data
    · rw [validate_of_match c key ch tok hl heq]
      simp [bytesEqual, heq]
    · rw [validate_of_mismatch c key ch tok hl heq]
      simp [bytesEqual, heq]

/-- C7, instantiated: on the empty registry `Validate` of an unknown identity
returns false and the registry stays empty. -/
theorem validate_failure_no_mutation_witness :
    (NewChallengeMap.Validate "test" (some [0x74, 0x65, 0x73, 0x74])).2 = false
    ∧ (NewChallengeMap.Validate "test" (some [0x74, 0x65, 0x73, 0x74])).1 = NewChallengeMap :=
  ⟨by decide,
   ((validate_failure_no_mutation NewChallengeMap "test" (some [0x74, 0x65, 0x73, 0x74])).2
      (by decide)).1⟩

/-- C10: `Validate` does not look at the issue time.  For every registry state
holding a record (id, token, issuedAt), `Validate(id, token)` returns true
whatever `issuedAt` is; a token older than the TTL stops being accepted only
once a `cleanup` run later than `issuedAt + TTL` has removed its record. -/
theorem validate_ignores_issue_time (c : ChallengeMap) (id : String) (token : Challenge)
    (issuedAt : Time) (hTok : c.challenges.lookup id = some token)
    (hTime : c.chTimes.lookup id = some issuedAt) :
    (c.Validate id token).2 = true
    ∧ ∀ now : Time, issuedAt + challengeTTL < now →
        ((c.cleanup now).Validate id token).2 = false := by
  constructor
  · rw [validate_of_match c id token token hTok rfl]
  · intro now hexp
    rw [validate_of_absent]
    unfold ChallengeMap.cleanup
    rw [foldl_remove_challenges, if_pos ((mem_expiredKeys c now id).mpr ⟨issuedAt, hTime, hexp⟩)]

/-- C10, instantiated: the record of `registryA` was issued at time 0; its
token validates although nothing bounds the age of the record, and fails to
validate after a cleanup run at 6 s. -/
theorem validate_ignores_issue_time_witness :
    (registryA.Validate "a" (some [0x0, 0x1, 0x2, 0x3])).2 = true
    ∧ ((registryA.cleanup (6 * second)).Validate "a" (some [0x0, 0x1, 0x2, 0x3])).2 = false :=
  ⟨(validate_ignores_issue_time registryA "a" (some [0x0, 0x1, 0x2, 0x3]) 0
      (by decide) (by decide)).1,
   (validate_ignores_issue_time registryA "a" (some [0x0, 0x1, 0x2, 0x3]) 0
      (by decide) (by decide)).2 (6 * second) (by decide)⟩

/-- C2, as stated, fails at the boundary: the record of `registryA` was issued
at time 0, so at `now = 5 s` it satisfies `issuedAt + TTL <= now`, yet after
`cleanup` it is still in both maps. -/
theorem cleanup_keeps_record_at_ttl :
    registryA.chTimes.lookup "a" = some 0
    ∧ (0 : Time) + challengeTTL ≤ 5 * second
    ∧ (registryA.cleanup (5 * second)).challenges.lookup "a" = some (some [0x0, 0x1, 0x2, 0x3])
    ∧ (registryA.cleanup (5 * second)).chTimes.lookup "a" = some 0 := by
  decide

/-- C2, amended: `cleanup` removes exactly the records whose TTL has strictly
passed.  For every registry state, current time `now` and identity whose issue
time is `issuedAt`: if `issuedAt + TTL < now` the identity is in neither map
after `cleanup`; if `issuedAt + TTL >= now` it keeps the same token and the
same issue time. -/
theorem cleanup_removes_exactly_expired (c : ChallengeMap) (now : Time) (key : String)
    (issuedAt : Time) (hTime : c.chTimes.lookup key = some issuedAt) :
    (issuedAt + challengeTTL < now →
        (c.cleanup now).challenges.lookup key = none
          ∧ (c.cleanup now).chTimes.lookup key = none)
    ∧ (now ≤ issuedAt + challengeTTL →
        (c.cleanup now).challenges.lookup key = c.challenges.lookup key
          ∧ (c.cleanup now).chTimes.lookup key = some issuedAt) := by
  unfold ChallengeMap.cleanup
  rw [foldl_remove_challenges, foldl_remove_chTimes]
  constructor
  · intro hexp
    have hmem := (mem_expiredKeys c now key).mpr ⟨issuedAt, hTime, hexp⟩
    simp [hmem]
  · intro hlive
    have hmem : key ∉ c.expiredKeys now := by
      intro hin
      obtain ⟨t, ht, hlt⟩ := (mem_expiredKeys c now key).mp hin
      rw [hTime] at ht
      cases ht
      exact absurd hlt (not_lt.mpr hlive)
    simp [hmem, hTime]

/-- C2 amended, instantiated on `registryA` (record issued at time 0): a
cleanup at 6 s removes the record, a cleanup at 5 s keeps its token. -/
theorem cleanup_removes_exactly_expired_witness :
    ((registryA.cleanup (6 * second)).challenges.lookup "a" = none
      ∧ (registryA.cleanup (6 * second)).chTimes.lookup "a" = none)
    ∧ ((registryA.cleanup (5 * second)).challenges.lookup "a" = registryA.challenges.lookup "a"
      ∧ (registryA.cleanup (5 * second)).chTimes.lookup "a" = some 0) :=
  ⟨(cleanup_removes_exactly_expired registryA (6 * second) "a" 0 (by decide)).1 (by decide),
   (cleanup_removes_exactly_expired registryA (5 * second) "a" 0 (by decide)).2 (by decide)⟩

/-! ## The response cache -/

/-- C8: cache round trip with observable absence.  On a fresh cache both
getters return the absent value (nil).  For every cache state and every byte
sequence `x` (a non-nil slice, nil being the absent value itself), the
zero-length one included, `SetInfoResponse(x)` followed by `InfoResponse()`
returns a present value equal to `x`, which differs from the absent value, and
`PlayersResponse()` returns what it returned before; the same holds with the
two kinds swapped. -/
theorem cache_round_trip (c : Cache) (x : List Byte) :
    Cache.New.InfoResponse = none ∧ Cache.New.PlayersResponse = none
    ∧ (c.SetInfoResponse (some x)).InfoResponse = some x
    ∧ (c.SetInfoResponse (some x)).InfoResponse ≠ Cache.New.InfoResponse
    ∧ (c.SetInfoResponse (some x)).PlayersResponse = c.PlayersResponse
    ∧ (c.SetPlayersResponse (some x)).PlayersResponse = some x
    ∧ (c.SetPlayersResponse (some x)).PlayersResponse ≠ Cache.New.PlayersResponse
    ∧ (c.SetPlayersResponse (some x)).InfoResponse = c.InfoResponse
    ∧ (c.SetInfoResponse (some [])).InfoResponse = some []
    ∧ (c.SetPlayersResponse (some [])).PlayersResponse = some [] := by
  simp [Cache.New, Cache.InfoResponse, Cache.PlayersResponse, Cache.SetInfoResponse,
    Cache.SetPlayersResponse, bytesClone]

/-! ## The query server -/

/-- C4: INFO data request.  For every server state and every 29-byte datagram
whose first 25 bytes are the INFO request, a reply is sent if and only if the
trailing 4 bytes equal the token pending for the sender in the INFO registry
and the INFO cache slot is populated; the reply is then exactly the cached INFO
payload.  A token that matches no pending record gets no reply, and after a
token has validated, the same datagram sent again gets no reply. -/
theorem info_data_request (P : Packets) (s : Server) (addr : String) (pkt : List Byte)
    (rnd : RandRead) (now : Time) (hlen : pkt.length = 29)
    (hpre : pkt.take 25 = P.A2SInfoReq) :
    ((serveStep P s addr pkt rnd now).2.isSome = true ↔
        ((∃ tok, s.chMapInfo.challenges.lookup addr = some tok ∧ tok.data = pkt.drop 25)
          ∧ s.cache.infoResp ≠ none))
    ∧ (∀ reply, (serveStep P s addr pkt rnd now).2 = some reply →
        s.cache.infoResp = some reply)
    ∧ ((¬ ∃ tok, s.chMapInfo.challenges.lookup addr = some tok ∧ tok.data = pkt.drop 25) →
        (serveStep P s addr pkt rnd now).2 = none)
    ∧ ((∃ tok, s.chMapInfo.challenges.lookup addr = some tok ∧ tok.data = pkt.drop 25) →
        ∀ (rnd2 : RandRead) (now2 : Time),
          (serveStep P (serveStep P s addr pkt rnd now).1 addr pkt rnd2 now2).2 = none) := by
  have hreply : ∀ reply, (serveStep P s addr pkt rnd now).2 = some reply ↔
      ((∃ tok, s.chMapInfo.challenges.lookup addr = some tok ∧ tok.data = pkt.drop 25)
        ∧ s.cache.infoResp = some reply) := by
    intro reply
    rw [serveStep_info_data P s addr pkt rnd now hlen hpre]
    simp only [respond_reply, validate_true_iff, Cache.InfoResponse]
    cases s.cache.infoResp <;> simp [bytesClone, Bytes.data]
  refine ⟨?_, ?_, ?_, ?_⟩
  · rw [Option.isSome_iff_exists]
    constructor
    · rintro ⟨reply, hr⟩
      have h := (hreply reply).mp hr
      exact ⟨h.1, by simp [h.2]⟩
    · rintro ⟨hex, hne⟩
      obtain ⟨reply, hc⟩ := Option.ne_none_iff_exists'.mp hne
      exact ⟨reply, (hreply reply).mpr ⟨hex, hc⟩⟩
  · intro reply hr
    exact ((hreply reply).mp hr).2
  · intro hno
    cases hr : (serveStep P s addr pkt rnd now).2 with
    | none => rfl
    | some reply => exact absurd ((hreply reply).mp hr).1 hno
  · rintro ⟨tok, hl, heq⟩ rnd2 now2
    rw [serveStep_info_data P _ addr pkt rnd2 now2 hlen hpre]
    rw [serveStep_info_data P s addr pkt rnd now hlen hpre]
    simp only [respond_registry]
    rw [validate_of_match s.chMapInfo addr (some (pkt.drop 25)) tok hl (by simpa [Bytes.data] using heq)]
    cases hr : (respond (s.chMapInfo.remove addr) addr (some (pkt.drop 25))
        s.cache.InfoResponse).2 with
    | none => rfl
    | some reply =>
      have h := ((respond_reply _ _ _ _ _).mp hr).1
      rw [validate_of_absent _ _ _ (by simp [ChallengeMap.remove])] at h
      cases h

/-- C4, instantiated on `serverA`: the request carrying the pending token
`00 01 02 03` is answered with the cached payload `49 01`, and sending it a
second time is not answered. -/
theorem info_data_request_witness :
    (serveStep a2sPackets serverA "a" infoDataReqA .failed 0).2 = some [0x49, 0x01]
    ∧ (serveStep a2sPackets (serveStep a2sPackets serverA "a" infoDataReqA .failed 0).1
        "a" infoDataReqA .failed 0).2 = none :=
  ⟨by decide,
   (info_data_request a2sPackets serverA "a" infoDataReqA .failed 0 (by decide)
      (by decide)).2.2.2 ⟨some [0x0, 0x1, 0x2, 0x3], by decide, by decide⟩ .failed 0⟩

/-- PLAYERS classification as `serve` performs it, for every packet table.  For
every 9-byte datagram that starts with the 5-byte PLAYERS header, the server
issues a new PLAYERS challenge when the 4 suffix bytes are the all-0xFF
wildcard or equal the table entry `A2SPlayerChallengeSuffixTF2`; for every
other suffix it treats the suffix as a challenge token and validates it against
the PLAYERS registry for the sender. -/
theorem players_classification (P : Packets) (hP : P.WellFormed) (s : Server) (addr : String)
    (pkt : List Byte) (rnd : RandRead) (now : Time) (hlen : pkt.length = 9)
    (hpre : pkt.take 5 = P.A2SPlayerReq) :
    ((pkt.drop 5 = wildcard ∨ pkt.drop 5 = P.A2SPlayerChallengeSuffixTF2) →
        serveStep P s addr pkt rnd now
          = (⟨s.chMapInfo, (sendChallenge P s.chMapPlayer addr rnd now).1, s.cache⟩,
              some (sendChallenge P s.chMapPlayer addr rnd now).2))
    ∧ (¬ (pkt.drop 5 = wildcard ∨ pkt.drop 5 = P.A2SPlayerChallengeSuffixTF2) →
        serveStep P s addr pkt rnd now
          = (⟨s.chMapInfo,
                (respond s.chMapPlayer addr (some (pkt.drop 5)) s.cache.PlayersResponse).1,
                s.cache⟩,
              (respond s.chMapPlayer addr (some (pkt.drop 5)) s.cache.PlayersResponse).2)) := by
  rw [serveStep_players P s addr pkt rnd now hlen hpre, hP.suffix_wildcard]
  constructor
  · intro h
    rw [if_pos (Or.symm h)]
  · intro h
    rw [if_neg (fun h2 => h (Or.symm h2))]

/-- The classification instantiated on `serverA` and `a2sPackets`: the wildcard
suffix makes the server issue a challenge; the suffix `09 09 09 09` is
validated against the (empty) PLAYERS registry and gets no reply. -/
theorem players_classification_witness :
    (serveStep a2sPackets serverA "a" (a2sPackets.A2SPlayerReq ++ wildcard) .failed 0).2
        = some (sendChallenge a2sPackets serverA.chMapPlayer "a" .failed 0).2
    ∧ (serveStep a2sPackets serverA "a" (a2sPackets.A2SPlayerReq ++ [9, 9, 9, 9]) .failed 0).2
        = none :=
  ⟨congrArg Prod.snd
      ((players_classification a2sPackets ⟨by decide, by decide, by decide, by decide⟩ serverA
        "a" (a2sPackets.A2SPlayerReq ++ wildcard) .failed 0 (by decide) (by decide)).1
        (Or.inl (by decide))),
   by decide⟩

/-- C9: challenge issuance.  For every server state, sender, outcome of the
random source and clock value, handling the 25-byte INFO request replies with
exactly the 5-byte challenge header followed by a 4-byte token (9 bytes); that
token is afterwards the record stored for the sender in the INFO registry,
whatever was stored for the sender before, stamped with the current time; the
records of every other identity, the PLAYERS registry and the cache are
unchanged. -/
theorem info_challenge_issuance (P : Packets) (hP : P.WellFormed) (s : Server) (addr : String)
    (rnd : RandRead) (now : Time) :
    ∃ tok : List Byte, tok.length = 4
      ∧ (serveStep P s addr P.A2SInfoReq rnd now).2 = some (P.ChallengeResp ++ tok)
      ∧ (P.ChallengeResp ++ tok).length = 9
      ∧ (serveStep P s addr P.A2SInfoReq rnd now).1.chMapInfo.challenges.lookup addr
          = some (some tok)
      ∧ (serveStep P s addr P.A2SInfoReq rnd now).1.chMapInfo.chTimes.lookup addr = some now
      ∧ (∀ other : String, other ≠ addr →
          (serveStep P s addr P.A2SInfoReq rnd now).1.chMapInfo.challenges.lookup other
              = s.chMapInfo.challenges.lookup other
            ∧ (serveStep P s addr P.A2SInfoReq rnd now).1.chMapInfo.chTimes.lookup other
              = s.chMapInfo.chTimes.lookup other)
      ∧ (serveStep P s addr P.A2SInfoReq rnd now).1.chMapPlayer = s.chMapPlayer
      ∧ (serveStep P s addr P.A2SInfoReq rnd now).1.cache = s.cache := by
  obtain ⟨tok, hlen, htok⟩ := genChallenge_shape rnd
  refine ⟨tok, hlen, ?_⟩
  rw [serveStep_info_challenge P s addr P.A2SInfoReq rnd now hP.infoReq_length rfl]
  simp only [sendChallenge, ChallengeMap.AddChallenge, Challenge.Copy, htok, bytesClone_some,
    Bytes.data]
  refine ⟨?_, ?_, ?_, ?_, ?_, ?_, ?_⟩
  · simp
  · simp [hP.challengeResp_length, hlen]
  · simp
  · simp
  · intro other hne
    exact ⟨AList.lookup_insert_ne hne, AList.lookup_insert_ne hne⟩
  · trivial
  · trivial

/-- C9, instantiated on `serverA`, whose INFO registry already holds a token
for the sender `a`, with the table `a2sPackets`. -/
theorem info_challenge_issuance_witness :
    ∃ tok : List Byte, tok.length = 4
      ∧ (serveStep a2sPackets serverA "a" a2sPackets.A2SInfoReq .failed 7).2
          = some (a2sPackets.ChallengeResp ++ tok)
      ∧ (a2sPackets.ChallengeResp ++ tok).length = 9
      ∧ (serveStep a2sPackets serverA "a" a2sPackets.A2SInfoReq .failed
          7).1.chMapInfo.challenges.lookup "a" = some (some tok)
      ∧ (serveStep a2sPackets serverA "a" a2sPackets.A2SInfoReq .failed
          7).1.chMapInfo.chTimes.lookup "a" = some 7
      ∧ (∀ other : String, other ≠ "a" →
          (serveStep a2sPackets serverA "a" a2sPackets.A2SInfoReq .failed
              7).1.chMapInfo.challenges.lookup other = serverA.chMapInfo.challenges.lookup other
            ∧ (serveStep a2sPackets serverA "a" a2sPackets.A2SInfoReq .failed
              7).1.chMapInfo.chTimes.lookup other = serverA.chMapInfo.chTimes.lookup other)
      ∧ (serveStep a2sPackets serverA "a" a2sPackets.A2SInfoReq .failed 7).1.chMapPlayer
          = serverA.chMapPlayer
      ∧ (serveStep a2sPackets serverA "a" a2sPackets.A2SInfoReq .failed 7).1.cache
          = serverA.cache :=
  info_challenge_issuance a2sPackets ⟨by decide, by decide, by decide, by decide⟩ serverA "a"
    .failed 7

/-- C6: no reply to unrecognised framing.  For every server state and every
inbound datagram that is none of the four shapes (the INFO request, the INFO
request plus 4 bytes, the PLAYERS header plus 4 bytes as wildcard or as token),
the server sends no reply and its state, both challenge registries included, is
unchanged. -/
theorem unknown_framing_no_reply (P : Packets) (s : Server) (addr : String) (pkt : List Byte)
    (rnd : RandRead) (now : Time)
    (hInfo : pkt ≠ P.A2SInfoReq)
    (hInfoCh : ∀ suffix : List Byte, suffix.length = 4 → pkt ≠ P.A2SInfoReq ++ suffix)
    (hPlayers : ∀ suffix : List Byte, suffix.length = 4 → pkt ≠ P.A2SPlayerReq ++ suffix) :
    (serveStep P s addr pkt rnd now).2 = none
    ∧ (serveStep P s addr pkt rnd now).1 = s
    ∧ (serveStep P s addr pkt rnd now).1.chMapInfo = s.chMapInfo
    ∧ (serveStep P s addr pkt rnd now).1.chMapPlayer = s.chMapPlayer := by
  have h : serveStep P s addr pkt rnd now = (s, none) := by
    apply serveStep_unknown
    · exact fun h => hInfo h.2
    · rintro ⟨hlen, hpre⟩
      apply hInfoCh (pkt.drop 25) (by simp [hlen])
      rw [← hpre, List.take_append_drop]
    · rintro ⟨hlen, hpre⟩
      apply hPlayers (pkt.drop 5) (by simp [hlen])
      rw [← hpre, List.take_append_drop]
  rw [h]
  exact ⟨rfl, rfl, rfl, rfl⟩

/-- C6, instantiated on `serverA` and `a2sPackets`: the bare 5-byte PLAYERS
header, without a suffix, gets no reply and changes nothing. -/
theorem unknown_framing_no_reply_witness :
    (serveStep a2sPackets serverA "a" a2sPackets.A2SPlayerReq .failed 0).2 = none
    ∧ (serveStep a2sPackets serverA "a" a2sPackets.A2SPlayerReq .failed 0).1 = serverA :=
  have h := unknown_framing_no_reply a2sPackets serverA "a" a2sPackets.A2SPlayerReq .failed 0
    (by decide)
    (fun suffix _ heq => by
      have hl := congrArg List.length heq
      simp [a2sPackets] at hl)
    (fun suffix hs heq => by
      have hl := congrArg List.length heq
      simp [a2sPackets, hs] at hl)
  ⟨h.1, h.2.1⟩

/-! ## The upstream poller -/

end A2SCache
